import Mathlib

/-!
Shallow embedding of the pixiv-downloader repository (files
`src/pixiv/core.py`, `src/pixiv/api.py`, `src/pixiv/download.py`)
and proofs about it.

Modelling conventions:
* Python dictionaries / filesystems are association lists.
* Machine timestamps are `Int` epoch seconds.  Both call sites that
  convert a remote `reuploaded_time` string to an epoch value
  (`time.mktime(_datetime(t).timetuple())` in `_is_skippable` and
  `_datetime(t).timestamp()` in `_utime`) denote the same whole-second
  local-epoch conversion, so remote timestamps are represented directly
  by their converted epoch value `Int`.
* Network effects are recorded in an explicit event trace; the
  filesystem is threaded as explicit state.
* An uncaught Python exception is modelled by an `Option`/`Except`
  failure value.
-/

namespace Pixiv

/-! ## Content records (`core.py` / `api.py` data accessed via attrdict) -/

/-- One entry of `work.metadata.pageiter` (a manga page);
`page.image_urls.large` is the only field read. -/
structure PageImg where
  image_urls_large : String
  deriving DecidableEq, Repr

/-- `work.metadata`: `zip_urls` is `none` when the attribute is absent
(attribute access raises `AttributeError` in the source); when present
it is an attrdict mapping size keys to archive URLs. -/
structure Metadata where
  zip_urls : Option (List (String × String))
  pageiter : List PageImg
  deriving DecidableEq, Repr

/-- Python key membership `'k' in attrdict`. -/
def hasKey (fields : List (String × α)) (k : String) : Bool :=
  fields.any (fun f => f.1 == k)

/-- Python key lookup `attrdict.k` / `d['k']` (first binding wins). -/
def getKey : List (String × α) → String → Option α
  | [], _ => none
  | (q, v) :: fs, k => if k = q then some v else getKey fs k

/-- A decoded work record.  `has_text_length` models the key-membership
probe `'text_length' in info`; `metadata = none` models a record on
which `info.metadata` raises `AttributeError`. -/
structure WorkInfo where
  id : Nat
  user_id : Nat
  has_text_length : Bool
  is_manga : Bool
  metadata : Option Metadata
  image_urls_large : String
  reuploaded_time : Option Int
  deriving DecidableEq, Repr

inductive WorkType where
  | ILLUST
  | MANGA
  | UGOIRA
  | NOVEL
  deriving DecidableEq, Repr

/-- The `try: ... except AttributeError:` probe in `core.worktype`
(lines 57-60): `'ugoira600x600' in info.metadata.zip_urls`, where a
missing `metadata` or missing `zip_urls` attribute raises
`AttributeError` which the source turns into `False`. -/
def ugoiraProbe (info : WorkInfo) : Bool :=
  match info.metadata with
  | none => false
  | some md =>
    match md.zip_urls with
    | none => false
    | some urls => hasKey urls "ugoira600x600"

/-- `core.worktype` (core.py lines 52-63): ordered short-circuit
classification of a record. -/
def worktype (info : WorkInfo) : WorkType :=
  if info.has_text_length then WorkType.NOVEL
  else if info.is_manga then WorkType.MANGA
  else if ugoiraProbe info then WorkType.UGOIRA
  else WorkType.ILLUST

/-! ## Filesystem model and staleness rule (`download.py`) -/

/-- The local filesystem: path ↦ modification time (epoch seconds). -/
def FS : Type := List (String × Int)

def fsLookup : FS → String → Option Int
  | [], _ => none
  | (q, m) :: fs, p => if p = q then some m else fsLookup fs p

def fsSet (fs : FS) (p : String) (m : Int) : FS := (p, m) :: fs

@[simp] theorem fsLookup_fsSet (fs : FS) (p q : String) (m : Int) :
    fsLookup (fsSet fs p m) q = if q = p then some m else fsLookup fs q := rfl

/-- `download._is_skippable` (download.py lines 39-42): `False` when the
remote timestamp is `None` or the file does not exist, else
`epoch(uploaded_time) <= getmtime(fname)`. -/
def is_skippable (fs : FS) (fname : String) (uploaded_time : Option Int) : Bool :=
  match uploaded_time with
  | none => false
  | some t =>
    match fsLookup fs fname with
    | none => false
    | some m => decide (t ≤ m)

/-- Final mtime produced by writing the file and then calling
`download._utime` (download.py lines 33-36): with a remote timestamp the
mtime is forced to its epoch value, otherwise it is the current time. -/
def utimeMtime (now : Int) : Option Int → Int
  | none => now
  | some t => t

/-! ## Event traces -/

/-- Observable effects of the downloader.  `rawFetch` is the network
call for a payload's bytes (`_pixiv_open`), `writeFile` the binary file
write, the `fetch*` events the metadata calls through the API. -/
inductive Ev where
  | rawFetch (url : String)
  | writeFile (path : String)
  | saveJson (path : String)
  | writeText (path : String)
  | fetchWorkInfo (id : Nat)
  | fetchWorkComments (id : Nat)
  | fetchNovelInfo (id : Nat)
  | fetchNovelComments (id : Nat)
  | fetchNovelText (id : Nat)
  | fetchUserInfo (id : Nat)
  deriving DecidableEq, Repr

def isRawFetch : Ev → Bool
  | Ev.rawFetch _ => true
  | _ => false

def isSaveJson : Ev → Bool
  | Ev.saveJson _ => true
  | _ => false

def isWorkInfoFetch : Ev → Bool
  | Ev.fetchWorkInfo _ => true
  | _ => false

def isUserInfoFetch : Ev → Bool
  | Ev.fetchUserInfo _ => true
  | _ => false

/-! ## `Downloader._download_raw` -/

structure Downloader where
  outdir : String
  deriving DecidableEq, Repr

/-- `os.path.join(self.outdir, out)` for a relative `out`. -/
def outJoin (outdir out : String) : String := outdir ++ "/" ++ out

/-- `Downloader._download_raw` (download.py lines 55-65): returns the new
filesystem, the trace of effects, and the boolean the source returns
(`False` on skip, `True` on download).  On a real download the file is
written and `_utime` forces its mtime. -/
def download_raw (d : Downloader) (now : Int) (fs : FS)
    (url out : String) (reuploaded_time : Option Int) : FS × List Ev × Bool :=
  let out := outJoin d.outdir out
  if is_skippable fs out reuploaded_time then
    (fs, [], false)
  else
    (fsSet fs out (utimeMtime now reuploaded_time), [Ev.rawFetch url, Ev.writeFile out], true)

end Pixiv

/-! ## C1: staleness skip rule -/

namespace Pixiv

/-- **C1.** For a download target with a remote modification timestamp
`t`, `_download_raw` skips (no byte fetch, no file write, filesystem
unchanged, returns `False`) iff a local file exists at the joined target
path with mtime `m` and `t ≤ m`.  In particular equal timestamps skip,
and a remote timestamp one second past the local mtime fetches. -/
theorem c1_staleness_skip (d : Downloader) (now : Int) (fs : FS)
    (url out : String) (t : Int) :
    (download_raw d now fs url out (some t) = (fs, [], false) ↔
      ∃ m, fsLookup fs (outJoin d.outdir out) = some m ∧ t ≤ m)
    ∧ (∀ m, fsLookup fs (outJoin d.outdir out) = some m → t = m →
        download_raw d now fs url out (some t) = (fs, [], false))
    ∧ (∀ m, fsLookup fs (outJoin d.outdir out) = some m → t = m + 1 →
        download_raw d now fs url out (some t) =
          (fsSet fs (outJoin d.outdir out) t,
            [Ev.rawFetch url, Ev.writeFile (outJoin d.outdir out)], true)) := by
  refine ⟨?_, ?_, ?_⟩
  · unfold download_raw is_skippable
    cases h : fsLookup fs (outJoin d.outdir out) with
    | none => simp [h]
    | some m =>
      by_cases hle : t ≤ m
      · simp [h, hle]
      · simp [h, hle]
  · intro m hm ht
    subst ht
    unfold download_raw is_skippable
    simp [hm]
  · intro m hm ht
    subst ht
    unfold download_raw is_skippable
    simp [hm, utimeMtime]

/-- Witness for C1 at a concrete input: outdir `"o"`, file `"o/f"`
present with mtime `7`; remote timestamp `7` skips. -/
theorem c1_staleness_skip_witness :
    download_raw ⟨"o"⟩ 99 [("o/f", 7)] "http://u" "f" (some 7) = ([("o/f", 7)], [], false) :=
  (c1_staleness_skip ⟨"o"⟩ 99 [("o/f", 7)] "http://u" "f" 7).2.1 7 (by decide) rfl

end Pixiv

/-! ## C4: kind classification -/

namespace Pixiv

/-- **C4.** `worktype` is the ordered short-circuit chain: a present
textual-length field gives `NOVEL` regardless of the other fields; else
a true manga flag gives `MANGA`; else a metadata block containing the
`ugoira600x600` archive entry gives `UGOIRA`, where an absent
`metadata` attribute or absent `zip_urls` attribute (at either level)
counts as "no"; else `ILLUST`. -/
theorem c4_worktype_chain (info : WorkInfo) :
    (info.has_text_length = true → worktype info = WorkType.NOVEL)
    ∧ (info.has_text_length = false → info.is_manga = true →
        worktype info = WorkType.MANGA)
    ∧ (info.has_text_length = false → info.is_manga = false →
        (∃ md urls, info.metadata = some md ∧ md.zip_urls = some urls ∧
          hasKey urls "ugoira600x600" = true) →
        worktype info = WorkType.UGOIRA)
    ∧ (info.has_text_length = false → info.is_manga = false →
        (info.metadata = none ∨
          (∃ md, info.metadata = some md ∧
            (md.zip_urls = none ∨
              ∃ urls, md.zip_urls = some urls ∧ hasKey urls "ugoira600x600" = false))) →
        worktype info = WorkType.ILLUST) := by
  refine ⟨?_, ?_, ?_, ?_⟩
  · intro h; simp [worktype, h]
  · intro h1 h2; simp [worktype, h1, h2]
  · intro h1 h2 ⟨md, urls, hmd, hz, hc⟩
    simp [worktype, h1, h2, ugoiraProbe, hmd, hz, hc]
  · intro h1 h2 h3
    rcases h3 with h | ⟨md, hmd, h⟩
    · simp [worktype, h1, h2, ugoiraProbe, h]
    · rcases h with h | ⟨urls, hz, hc⟩
      · simp [worktype, h1, h2, ugoiraProbe, hmd, h]
      · simp [worktype, h1, h2, ugoiraProbe, hmd, hz, hc]

/-- Witness for C4: a record with both a textual-length field and a true
manga flag classifies as `NOVEL` (first check wins). -/
theorem c4_worktype_chain_witness :
    worktype ⟨1, 2, true, true, some ⟨some [("ugoira600x600", "zipurl")], []⟩, "u", none⟩ =
      WorkType.NOVEL :=
  (c4_worktype_chain
    ⟨1, 2, true, true, some ⟨some [("ugoira600x600", "zipurl")], []⟩, "u", none⟩).1 rfl

end Pixiv

/-! ## The download orchestrator (`download.py Downloader`) -/

namespace Pixiv

/-- `'{:0Nd}'.format(n)`: decimal rendering of `n` left-padded with
zeros to width `w`. -/
def padNum (w : Nat) (n : Nat) : String :=
  let s := toString n
  String.mk (List.replicate (w - s.length) '0') ++ s

/-- `download._ext`: the extension of a URL without its dot
(`os.path.splitext(url)[-1][1:]`), modelled as the run of characters
after the last `'.'` (empty when there is no dot). -/
def extOf (url : String) : String :=
  let rev := url.toList.reverse
  if rev.contains '.' then String.mk (rev.takeWhile (fun c => c ≠ '.')).reverse
  else ""

/-- `Downloader.illust_outpath` (download.py lines 152-154). -/
def illust_outpath (work : WorkInfo) (ext : String) : String :=
  "users/" ++ padNum 9 work.user_id ++ "/works/" ++ padNum 12 work.id ++ "." ++ ext

/-- `Downloader.manga_outpath` (download.py lines 156-158). -/
def manga_outpath (work : WorkInfo) (page : Nat) (ext : String) : String :=
  "users/" ++ padNum 9 work.user_id ++ "/works/" ++ padNum 12 work.id ++ "_"
    ++ padNum 4 page ++ "." ++ ext

/-- `Downloader.ugoira_outpath` (download.py lines 160-162). -/
def ugoira_outpath (work : WorkInfo) (ext : String) : String :=
  "users/" ++ padNum 9 work.user_id ++ "/works/" ++ padNum 12 work.id ++ "." ++ ext

/-- `Downloader.work_info_outpath` (download.py lines 168-170). -/
def work_info_outpath (work : WorkInfo) (ext : String) : String :=
  "users/" ++ padNum 9 work.user_id ++ "/works/" ++ padNum 12 work.id ++ "_info." ++ ext

/-- `Downloader.work_comments_outpath` (download.py lines 176-178). -/
def work_comments_outpath (work : WorkInfo) (ext : String) : String :=
  "users/" ++ padNum 9 work.user_id ++ "/works/" ++ padNum 12 work.id ++ "_comments." ++ ext

/-- A decoded novel record (fields read by `download_novel`). -/
structure NovelInfo where
  id : Nat
  user_id : Nat
  reuploaded_time : Option Int
  deriving DecidableEq, Repr

/-- `Downloader.novel_outpath` (download.py lines 164-166). -/
def novel_outpath (novel : NovelInfo) (ext : String) : String :=
  "users/" ++ padNum 9 novel.user_id ++ "/novels/" ++ padNum 12 novel.id ++ "." ++ ext

/-- `Downloader.novel_info_outpath` (download.py lines 172-174). -/
def novel_info_outpath (novel : NovelInfo) (ext : String) : String :=
  "users/" ++ padNum 9 novel.user_id ++ "/novels/" ++ padNum 12 novel.id ++ "_info." ++ ext

/-- `Downloader.novel_comments_outpath` (download.py lines 180-182). -/
def novel_comments_outpath (novel : NovelInfo) (ext : String) : String :=
  "users/" ++ padNum 9 novel.user_id ++ "/novels/" ++ padNum 12 novel.id ++ "_comments." ++ ext

/-- A decoded user record (fields read by `_download_user_info`). -/
structure UserInfo where
  id : Nat
  profile_image_url : String
  deriving DecidableEq, Repr

/-- `Downloader.user_info_outpath` (download.py lines 184-186). -/
def user_info_outpath (user : UserInfo) (ext : String) : String :=
  "users/" ++ padNum 9 user.id ++ "/info." ++ ext

/-- `Downloader.user_image_outpath` (download.py lines 188-190). -/
def user_image_outpath (user : UserInfo) (ext : String) : String :=
  "users/" ++ padNum 9 user.id ++ "/image." ++ ext

/-- The remote side seen by the orchestrator: what `core.PixivApi`'s
endpoint calls and the novel-page scrape return for each identifier.
The orchestrator assumes the remote state is unchanged between calls,
which a pure function models. -/
structure Remote where
  works : Nat → WorkInfo
  novels : Nat → NovelInfo
  novel_text : Nat → String
  users : Nat → UserInfo
  users_works : Nat → List WorkInfo
  users_novels : Nat → List NovelInfo

/-- `Downloader._save_json` (download.py lines 67-72): always writes the
file (mtime becomes the current time) and records the save. -/
def save_json (d : Downloader) (now : Int) (fs : FS) (out : String) : FS × List Ev :=
  let out := outJoin d.outdir out
  (fsSet fs out now, [Ev.saveJson out])

/-- `Downloader._download_illust` (download.py lines 112-115). -/
def download_illust (d : Downloader) (now : Int) (fs : FS) (work : WorkInfo) :
    FS × List Ev :=
  let url := work.image_urls_large
  let r := download_raw d now fs url (illust_outpath work (extOf url)) work.reuploaded_time
  (r.1, r.2.1)

/-- The body of the `for i, page in enumerate(work.metadata.pageiter)`
loop of `Downloader._download_manga`. -/
def download_manga_pages (d : Downloader) (now : Int) (work : WorkInfo) :
    List PageImg → Nat → FS → FS × List Ev
  | [], _, fs => (fs, [])
  | page :: rest, i, fs =>
    let url := page.image_urls_large
    let r := download_raw d now fs url (manga_outpath work i (extOf url)) work.reuploaded_time
    let r2 := download_manga_pages d now work rest (i + 1) r.1
    (r2.1, r.2.1 ++ r2.2)

/-- `Downloader._download_manga` (download.py lines 117-121):
`work.metadata.pageiter` raises `AttributeError` when `metadata` is
absent, modelled by `none`. -/
def download_manga (d : Downloader) (now : Int) (fs : FS) (work : WorkInfo) :
    Option (FS × List Ev) :=
  match work.metadata with
  | none => none
  | some md => some (download_manga_pages d now work md.pageiter 0 fs)

/-- The attribute chain `work.metadata.zip_urls.ugoira600x600`
(download.py line 124); `none` models an `AttributeError` at any
level. -/
def ugoiraUrl (work : WorkInfo) : Option String :=
  match work.metadata with
  | none => none
  | some md =>
    match md.zip_urls with
    | none => none
    | some urls => getKey urls "ugoira600x600"

/-- `Downloader._download_ugoira` (download.py lines 123-126): only
reached when `ugoiraProbe` succeeded, so the attribute chain exists;
an absent attribute is an uncaught `AttributeError`. -/
def download_ugoira (d : Downloader) (now : Int) (fs : FS) (work : WorkInfo) :
    Option (FS × List Ev) :=
  match ugoiraUrl work with
  | none => none
  | some url =>
    let r := download_raw d now fs url (ugoira_outpath work (extOf url)) work.reuploaded_time
    some (r.1, r.2.1)

/-- `Downloader.download_work` (download.py lines 74-89): fetch the work
record, save its info json, fetch and save its comments, then dispatch
on the manga flag and the ugoira probe (the same
`try/except AttributeError` probe as `worktype`).  `none` models an
uncaught exception (manga record without `metadata`). -/
def download_work (d : Downloader) (remote : Remote) (now : Int) (fs : FS)
    (work_id : Nat) : Option (FS × List Ev) :=
  let work := remote.works work_id
  let r1 := save_json d now fs (work_info_outpath work "json")
  let r2 := save_json d now r1.1 (work_comments_outpath work "json")
  let pre := Ev.fetchWorkInfo work_id :: r1.2 ++ Ev.fetchWorkComments work.id :: r2.2
  if work.is_manga then
    match download_manga d now r2.1 work with
    | none => none
    | some r3 => some (r3.1, pre ++ r3.2)
  else if ugoiraProbe work then
    match download_ugoira d now r2.1 work with
    | none => none
    | some r3 => some (r3.1, pre ++ r3.2)
  else
    let r3 := download_illust d now r2.1 work
    some (r3.1, pre ++ r3.2)

end Pixiv

/-! ## C2: running `download_work` twice fetches the bytes once -/

namespace Pixiv

/-- **C2.** For an illustration-kind work carrying a remote timestamp
`t` whose payload is not yet present locally, the first
`download_work` run performs exactly one byte fetch and leaves the
local file's mtime equal to `t` (not the current time `now1`), and a
second run with unchanged remote state performs zero byte fetches —
while both runs fetch the work record and comments and write both json
files. -/
theorem c2_second_run_skips (d : Downloader) (remote : Remote)
    (now1 now2 : Int) (fs : FS) (work_id : Nat) (t : Int)
    (hm : (remote.works work_id).is_manga = false)
    (hu : ugoiraProbe (remote.works work_id) = false)
    (ht : (remote.works work_id).reuploaded_time = some t)
    (himg : fsLookup fs (outJoin d.outdir (illust_outpath (remote.works work_id)
      (extOf (remote.works work_id).image_urls_large))) = none)
    (hne1 : outJoin d.outdir (illust_outpath (remote.works work_id)
        (extOf (remote.works work_id).image_urls_large)) ≠
      outJoin d.outdir (work_info_outpath (remote.works work_id) "json"))
    (hne2 : outJoin d.outdir (illust_outpath (remote.works work_id)
        (extOf (remote.works work_id).image_urls_large)) ≠
      outJoin d.outdir (work_comments_outpath (remote.works work_id) "json")) :
    ∃ fs1 tr1 fs2 tr2,
      download_work d remote now1 fs work_id = some (fs1, tr1) ∧
      download_work d remote now2 fs1 work_id = some (fs2, tr2) ∧
      (tr1.filter isRawFetch).length = 1 ∧
      (tr2.filter isRawFetch).length = 0 ∧
      fsLookup fs1 (outJoin d.outdir (illust_outpath (remote.works work_id)
        (extOf (remote.works work_id).image_urls_large))) = some t ∧
      (tr1.filter isSaveJson).length = 2 ∧
      (tr2.filter isSaveJson).length = 2 ∧
      Ev.fetchWorkInfo work_id ∈ tr1 ∧
      Ev.fetchWorkComments (remote.works work_id).id ∈ tr1 ∧
      Ev.fetchWorkInfo work_id ∈ tr2 ∧
      Ev.fetchWorkComments (remote.works work_id).id ∈ tr2 := by
  have h1 : download_work d remote now1 fs work_id =
      some (fsSet (fsSet (fsSet fs
          (outJoin d.outdir (work_info_outpath (remote.works work_id) "json")) now1)
          (outJoin d.outdir (work_comments_outpath (remote.works work_id) "json")) now1)
          (outJoin d.outdir (illust_outpath (remote.works work_id)
            (extOf (remote.works work_id).image_urls_large))) t,
        [Ev.fetchWorkInfo work_id,
         Ev.saveJson (outJoin d.outdir (work_info_outpath (remote.works work_id) "json")),
         Ev.fetchWorkComments (remote.works work_id).id,
         Ev.saveJson (outJoin d.outdir (work_comments_outpath (remote.works work_id) "json")),
         Ev.rawFetch (remote.works work_id).image_urls_large,
         Ev.writeFile (outJoin d.outdir (illust_outpath (remote.works work_id)
           (extOf (remote.works work_id).image_urls_large)))]) := by
    simp [download_work, save_json, download_illust, download_raw, is_skippable,
      ht, hm, hu, hne1, hne2, himg, utimeMtime]
  have h2 : download_work d remote now2
      (fsSet (fsSet (fsSet fs
        (outJoin d.outdir (work_info_outpath (remote.works work_id) "json")) now1)
        (outJoin d.outdir (work_comments_outpath (remote.works work_id) "json")) now1)
        (outJoin d.outdir (illust_outpath (remote.works work_id)
          (extOf (remote.works work_id).image_urls_large))) t) work_id =
      some (fsSet (fsSet (fsSet (fsSet (fsSet fs
          (outJoin d.outdir (work_info_outpath (remote.works work_id) "json")) now1)
          (outJoin d.outdir (work_comments_outpath (remote.works work_id) "json")) now1)
          (outJoin d.outdir (illust_outpath (remote.works work_id)
            (extOf (remote.works work_id).image_urls_large))) t)
          (outJoin d.outdir (work_info_outpath (remote.works work_id) "json")) now2)
          (outJoin d.outdir (work_comments_outpath (remote.works work_id) "json")) now2,
        [Ev.fetchWorkInfo work_id,
         Ev.saveJson (outJoin d.outdir (work_info_outpath (remote.works work_id) "json")),
         Ev.fetchWorkComments (remote.works work_id).id,
         Ev.saveJson (outJoin d.outdir (work_comments_outpath (remote.works work_id) "json"))]) := by
    simp [download_work, save_json, download_illust, download_raw, is_skippable,
      ht, hm, hu, hne1, hne2, utimeMtime]
  refine ⟨_, _, _, _, h1, h2, ?_, ?_, ?_, ?_, ?_, ?_, ?_, ?_, ?_⟩
  · rfl
  · rfl
  · simp [hne1, hne2]
  · rfl
  · rfl
  · simp
  · simp
  · simp
  · simp

/-- Witness for C2 at a fully concrete input (outdir `"o"`, a work with
id 11 by user 22, payload URL `"http://x/a.jpg"`, remote timestamp
100, empty initial filesystem). -/
theorem c2_second_run_skips_witness :
    ∃ fs1 tr1 fs2 tr2,
      download_work ⟨"o"⟩
        ⟨fun _ => ⟨11, 22, false, false, none, "http://x/a.jpg", some 100⟩,
         fun _ => ⟨0, 0, none⟩, fun _ => "", fun _ => ⟨0, ""⟩, fun _ => [], fun _ => []⟩
        5 [] 11 = some (fs1, tr1) ∧
      download_work ⟨"o"⟩
        ⟨fun _ => ⟨11, 22, false, false, none, "http://x/a.jpg", some 100⟩,
         fun _ => ⟨0, 0, none⟩, fun _ => "", fun _ => ⟨0, ""⟩, fun _ => [], fun _ => []⟩
        6 fs1 11 = some (fs2, tr2) ∧
      (tr1.filter isRawFetch).length = 1 ∧
      (tr2.filter isRawFetch).length = 0 ∧
      fsLookup fs1 (outJoin "o" (illust_outpath
        ⟨11, 22, false, false, none, "http://x/a.jpg", some 100⟩
        (extOf "http://x/a.jpg"))) = some 100 ∧
      (tr1.filter isSaveJson).length = 2 ∧
      (tr2.filter isSaveJson).length = 2 ∧
      Ev.fetchWorkInfo 11 ∈ tr1 ∧
      Ev.fetchWorkComments 11 ∈ tr1 ∧
      Ev.fetchWorkInfo 11 ∈ tr2 ∧
      Ev.fetchWorkComments 11 ∈ tr2 :=
  c2_second_run_skips ⟨"o"⟩
    ⟨fun _ => ⟨11, 22, false, false, none, "http://x/a.jpg", some 100⟩,
     fun _ => ⟨0, 0, none⟩, fun _ => "", fun _ => ⟨0, ""⟩, fun _ => [], fun _ => []⟩
    5 6 [] 11 100 rfl rfl rfl rfl (by decide) (by decide)

end Pixiv

/-! ## Pagination (`core.PixivApi._request_multipages`, core.py lines 119-146) -/

namespace Pixiv

/-- One decoded page envelope as seen by the pagination loop:
`res.response` and `res.pagination.next` (a page number, `0`, or
null). -/
structure PageResp (R : Type) where
  response : List R
  next : Option Nat
  deriving DecidableEq, Repr

/-- Full consumption of the generator `Response.pageiter` (core.py lines
133-138, identical in api.py lines 164-169):

    p = 1
    while p:
        res = self._request_page(p)
        p = res.pagination.next
        yield res.response

Returns the pages requested (in request order), the record chunks in
yield order, and whether the loop terminated (fuel models the fact that
a Python `while` just keeps running; `false` means fuel ran out).
`while p:` is Python truthiness: both `None` and `0` stop the loop. -/
def pageiterRun (request_page : Nat → PageResp R) :
    Nat → Nat → List Nat × List (List R) × Bool
  | 0, _ => ([], [], false)
  | fuel + 1, p =>
    let res := request_page p
    match res.next with
    | some k =>
      if k ≠ 0 then
        let rest := pageiterRun request_page fuel k
        (p :: rest.1, res.response :: rest.2.1, rest.2.2)
      else ([p], [res.response], true)
    | none => ([p], [res.response], true)

/-- Result of `_request_multipages`: either the single page's records
(the `params['page']` truthy branch, core.py lines 120-121) or the lazy
`Response` cursor handle, whose iteration is `pageiterRun` starting at
page 1 and which performs no request at construction. -/
inductive MultiResult (R : Type) where
  | fetched (records : List R)
  | cursor
  deriving DecidableEq, Repr

/-- `core.PixivApi._request_multipages` (core.py lines 119-146); the
second component is the list of page requests issued during
construction itself. -/
def request_multipages (request_page : Nat → PageResp R) (page : Option Nat) :
    MultiResult R × List Nat :=
  match page with
  | some n =>
    if n ≠ 0 then (MultiResult.fetched (request_page n).response, [n])
    else (MultiResult.cursor, [])
  | none => (MultiResult.cursor, [])

/-- A remote resource of `records` cut into pages of size `K`
(1-indexed); the server reports `next = p + 1` while records remain and
`next = null` after the last page. -/
def pagedServer (records : List R) (K : Nat) : Nat → PageResp R :=
  fun p =>
    { response := (records.drop ((p - 1) * K)).take K
      next := if p * K < records.length then some (p + 1) else none }

theorem ceilPages_iff (K N p : Nat) (hK : 1 ≤ K) :
    p * K < N ↔ p < (N + K - 1) / K := by
  have h : p + 1 ≤ (N + K - 1) / K ↔ (p + 1) * K ≤ N + K - 1 :=
    Nat.le_div_iff_mul_le hK
  rw [Nat.succ_mul] at h
  generalize hD : (N + K - 1) / K = D at h
  generalize hM : p * K = M at h
  omega

theorem pageiterRun_pagedServer (records : List R) (K : Nat) (hK : 1 ≤ K) :
    ∀ fuel p, 1 ≤ p → p ≤ (records.length + K - 1) / K →
      (records.length + K - 1) / K + 1 - p ≤ fuel →
      (pageiterRun (pagedServer records K) fuel p).1 =
        List.range' p ((records.length + K - 1) / K + 1 - p) ∧
      (pageiterRun (pagedServer records K) fuel p).2.1.flatten =
        records.drop ((p - 1) * K) ∧
      (pageiterRun (pagedServer records K) fuel p).2.2 = true := by
  intro fuel
  induction fuel with
  | zero => intro p h1 h2 h3; omega
  | succ fuel ih =>
    intro p h1 h2 h3
    by_cases hc : p * K < records.length
    · have hlt : p < (records.length + K - 1) / K := (ceilPages_iff K _ p hK).mp hc
      have hrec := ih (p + 1) (by omega) (by omega) (by omega)
      refine ⟨?_, ?_, ?_⟩
      · show (pageiterRun (pagedServer records K) (fuel + 1) p).1 = _
        simp only [pageiterRun, pagedServer, hc, if_true, ne_eq, Nat.succ_ne_zero,
          not_false_eq_true]
        rw [hrec.1]
        have hn : (records.length + K - 1) / K + 1 - p =
            ((records.length + K - 1) / K + 1 - (p + 1)) + 1 := by omega
        rw [hn, List.range'_succ]
      · show (pageiterRun (pagedServer records K) (fuel + 1) p).2.1.flatten = _
        simp only [pageiterRun, pagedServer, hc, if_true, ne_eq, Nat.succ_ne_zero,
          not_false_eq_true, List.flatten_cons]
        rw [hrec.2.1]
        have hpk : (p + 1 - 1) * K = (p - 1) * K + K := by
          cases p with
          | zero => omega
          | succ q => simp [Nat.succ_mul]
        rw [hpk, ← List.drop_drop, List.take_append_drop]
      · show (pageiterRun (pagedServer records K) (fuel + 1) p).2.2 = true
        simp only [pageiterRun, pagedServer, hc, if_true, ne_eq, Nat.succ_ne_zero,
          not_false_eq_true]
        exact hrec.2.2
    · have hP : p = (records.length + K - 1) / K := by
        have := (ceilPages_iff K records.length p hK).not.mp hc
        omega
      have hlen : (records.drop ((p - 1) * K)).length ≤ K := by
        rw [List.length_drop]
        have : records.length ≤ p * K := Nat.le_of_not_lt hc
        have hpm : (p - 1) * K + K = p * K := by
          cases p with
          | zero => omega
          | succ q => simp [Nat.succ_mul]
        omega
      refine ⟨?_, ?_, ?_⟩
      · show (pageiterRun (pagedServer records K) (fuel + 1) p).1 = _
        simp only [pageiterRun, pagedServer, hc, if_false]
        have : (records.length + K - 1) / K + 1 - p = 1 := by omega
        rw [this, List.range'_one]
      · show (pageiterRun (pagedServer records K) (fuel + 1) p).2.1.flatten = _
        simp only [pageiterRun, pagedServer, hc, if_false, List.flatten_cons]
        simp [List.take_of_length_le hlen]
      · show (pageiterRun (pagedServer records K) (fuel + 1) p).2.2 = true
        simp only [pageiterRun, pagedServer, hc, if_false]

end Pixiv

/-! ## C3: pagination exhaustion -/

namespace Pixiv

/-- **C3.** Iterating the cursor built with `page` unset over a resource
of `N ≥ 1` records cut into pages of size `K ≥ 1` (with `next = null`
after the last page) terminates, yields exactly the `N` records in
order (pages concatenated in page order), performs exactly
`⌈N / K⌉ = (N + K - 1) / K` page requests, namely pages
`1, 2, …, ⌈N / K⌉` in that order, and never requests the same page
twice. -/
theorem c3_pagination_exhaustion (R : Type) (records : List R) (K fuel : Nat)
    (hK : 1 ≤ K) (hN : 1 ≤ records.length)
    (hfuel : (records.length + K - 1) / K ≤ fuel) :
    (pageiterRun (pagedServer records K) fuel 1).2.1.flatten = records ∧
    (pageiterRun (pagedServer records K) fuel 1).2.2 = true ∧
    (pageiterRun (pagedServer records K) fuel 1).1 =
      List.range' 1 ((records.length + K - 1) / K) ∧
    (pageiterRun (pagedServer records K) fuel 1).1.length =
      (records.length + K - 1) / K ∧
    (pageiterRun (pagedServer records K) fuel 1).1.Nodup := by
  have hP : 1 ≤ (records.length + K - 1) / K := by
    have h : 1 ≤ (records.length + K - 1) / K ↔ 1 * K ≤ records.length + K - 1 :=
      Nat.le_div_iff_mul_le hK
    omega
  have key := pageiterRun_pagedServer records K hK fuel 1 le_rfl hP (by omega)
  have hn : (records.length + K - 1) / K + 1 - 1 = (records.length + K - 1) / K := by
    omega
  rw [hn] at key
  refine ⟨?_, key.2.2, ?_, ?_, ?_⟩
  · rw [key.2.1]; simp
  · exact key.1
  · rw [key.1]; simp
  · rw [key.1]; exact List.nodup_range' 1 _ 1 one_pos

/-- Witness for C3: five records in pages of size two — three requests
(pages 1, 2, 3), all five records in order, loop terminated. -/
theorem c3_pagination_exhaustion_witness :
    (pageiterRun (pagedServer [10, 20, 30, 40, 50] 2) 3 1).2.1.flatten =
        [10, 20, 30, 40, 50] ∧
    (pageiterRun (pagedServer [10, 20, 30, 40, 50] 2) 3 1).2.2 = true ∧
    (pageiterRun (pagedServer [10, 20, 30, 40, 50] 2) 3 1).1 = List.range' 1 3 ∧
    (pageiterRun (pagedServer [10, 20, 30, 40, 50] 2) 3 1).1.length = 3 ∧
    (pageiterRun (pagedServer [10, 20, 30, 40, 50] 2) 3 1).1.Nodup :=
  c3_pagination_exhaustion Nat [10, 20, 30, 40, 50] 2 3 (by decide) (by decide) (by decide)

end Pixiv

/-! ## C8: a `page` of 0 does not perform a single-page fetch -/

namespace Pixiv

/-- C8 as claimed: whenever the caller sets a page number — any value,
including 0 — construction performs exactly one fetch and returns the
page's records, never the lazy cursor handle. -/
def c8Claim : Prop :=
  ∀ (request_page : Nat → PageResp Nat) (n : Nat),
    (request_multipages request_page (some n)).2.length = 1 ∧
    (request_multipages request_page (some n)).1 ≠ MultiResult.cursor

/-- **C8, counterexample.** The claim fails at `page = 0`: Python's
`if params['page']:` is a truthiness test, so a supplied page number 0
falls into the cursor branch — no fetch is performed at construction
and the result is the lazy handle. -/
theorem c8_page_zero_cex : ¬ c8Claim := by
  intro h
  have := (h (pagedServer [1] 1) 0).1
  simp [request_multipages] at this

/-- **C8, amended.** If the page number is set to any *nonzero* value,
construction performs exactly one fetch (of that page) and returns the
page's records as a finite sequence; a supplied page number of 0 is
treated like an unset page: no fetch at construction and the lazy
cursor handle is returned. -/
theorem c8_page_set_single_fetch (R : Type) (request_page : Nat → PageResp R)
    (n : Nat) (hn : n ≠ 0) :
    request_multipages request_page (some n) =
      (MultiResult.fetched (request_page n).response, [n]) ∧
    request_multipages request_page (some 0) = (MultiResult.cursor, []) ∧
    request_multipages request_page none = (MultiResult.cursor, []) := by
  refine ⟨?_, rfl, rfl⟩
  simp [request_multipages, hn]

/-- Witness for C8's amended theorem at `n = 2` on a concrete server. -/
theorem c8_page_set_single_fetch_witness :
    request_multipages (pagedServer [10, 20, 30] 2) (some 2) =
      (MultiResult.fetched [30], [2]) ∧
    request_multipages (pagedServer [10, 20, 30] 2) (some 0) =
      (MultiResult.cursor, []) ∧
    request_multipages (pagedServer [10, 20, 30] 2) none =
      (MultiResult.cursor, []) := by
  have h := c8_page_set_single_fetch Nat (pagedServer [10, 20, 30] 2) 2 (by decide)
  simpa [pagedServer] using h

end Pixiv

/-! ## Single-page requests (`api.PixivApiBase.request_singlepage`,
api.py lines 144-148, and `core.PixivApi._request_singlepage`, core.py
lines 113-117) -/

namespace Pixiv

/-- The `response` section of a decoded envelope: either a JSON
sequence of records or a single JSON map (attrdict with string keys). -/
inductive RespSec (R : Type) where
  | arr (xs : List R)
  | obj (fields : List (String × R))
  deriving DecidableEq, Repr

/-- A decoded envelope as seen by the single-page helpers:
`has_pagination` models the key probe `'pagination' in res`. -/
structure Envelope (R : Type) where
  response : RespSec R
  has_pagination : Bool
  deriving DecidableEq, Repr

/-- What a single-page helper can hand back: one record of the
sequence, or the whole response map. -/
inductive SPOut (R : Type) where
  | record (r : R)
  | object (fields : List (String × R))
  deriving DecidableEq, Repr

/-- Python exceptions escaping the helpers. -/
inductive PyExc where
  | assertionError
  | keyError
  | indexError
  deriving DecidableEq, Repr

/-- `api.PixivApiBase.request_singlepage` (api.py lines 144-148):
`assert 'pagination' not in res`, `assert len(res.response) == 1`, then
`res.response[0]`.  `len` of a map is its key count; `[0]` on a
string-keyed attrdict raises `KeyError`. -/
def request_singlepage (env : Envelope R) : Except PyExc (SPOut R) :=
  if env.has_pagination then Except.error PyExc.assertionError
  else
    let len := match env.response with
      | RespSec.arr xs => xs.length
      | RespSec.obj fields => fields.length
    if len ≠ 1 then Except.error PyExc.assertionError
    else
      match env.response with
      | RespSec.arr [] => Except.error PyExc.indexError
      | RespSec.arr (x :: _) => Except.ok (SPOut.record x)
      | RespSec.obj _ => Except.error PyExc.keyError

/-- `core.PixivApi._request_singlepage` (core.py lines 113-117): no
pagination check, returns the map itself when `res.response` is a dict,
else `res.response[0]` (an `IndexError` on an empty sequence, the first
element otherwise — no length check). -/
def core_request_singlepage (env : Envelope R) : Except PyExc (SPOut R) :=
  match env.response with
  | RespSec.obj fields => Except.ok (SPOut.object fields)
  | RespSec.arr [] => Except.error PyExc.indexError
  | RespSec.arr (x :: _) => Except.ok (SPOut.record x)

/-- C6 as claimed, as a property of a single-page operation: it fails on
every envelope with a pagination block, and otherwise returns the sole
element of a one-element sequence, or the map itself when the response
section is a map. -/
def singlepageClaim (f : (env : Envelope Nat) → Except PyExc (SPOut Nat)) : Prop :=
  ∀ env : Envelope Nat,
    (env.has_pagination = true → ∃ e, f env = Except.error e)
    ∧ (env.has_pagination = false →
        (∀ x, env.response = RespSec.arr [x] → f env = Except.ok (SPOut.record x))
        ∧ (∀ fields, env.response = RespSec.obj fields →
            f env = Except.ok (SPOut.object fields)))

/-- **C6, counterexample.**  Neither single-page implementation satisfies
the claim: the operative `core._request_singlepage` returns a record
from an envelope that *does* contain a pagination block (it never
checks), and `api.request_singlepage` raises (`AssertionError` /
`KeyError`) instead of returning the map when the response section is a
single map. -/
theorem c6_singlepage_cex :
    ¬ singlepageClaim (core_request_singlepage (R := Nat))
    ∧ ¬ singlepageClaim (request_singlepage (R := Nat)) := by
  constructor
  · intro h
    have := (h ⟨RespSec.obj [("id", 5)], true⟩).1 rfl
    rcases this with ⟨e, he⟩
    simp [core_request_singlepage] at he
  · intro h
    have := ((h ⟨RespSec.obj [("id", 5)], false⟩).2 rfl).2 [("id", 5)] rfl
    simp [request_singlepage] at this

/-- **C6, amended.**  The two implementations split the claimed
behaviour: `api.request_singlepage` fails (`AssertionError`) on any
envelope with a pagination block or whose response section does not
have length one, and returns the sole element of a one-element
sequence, but fails with `KeyError` instead of returning a single map;
`core._request_singlepage` (the one the downloader uses) applies no
pagination check at all, returns the map itself whenever the response
section is a map, and otherwise returns the *first* element of the
sequence without checking its length (`IndexError` only when empty). -/
theorem c6_singlepage_behaviour (R : Type) (env : Envelope R) :
    (env.has_pagination = true →
      request_singlepage env = Except.error PyExc.assertionError)
    ∧ (env.has_pagination = false → ∀ x, env.response = RespSec.arr [x] →
        request_singlepage env = Except.ok (SPOut.record x))
    ∧ (env.has_pagination = false → ∀ fields, env.response = RespSec.obj fields →
        ∃ e, request_singlepage env = Except.error e)
    ∧ (∀ fields, env.response = RespSec.obj fields →
        core_request_singlepage env = Except.ok (SPOut.object fields))
    ∧ (∀ x xs, env.response = RespSec.arr (x :: xs) →
        core_request_singlepage env = Except.ok (SPOut.record x))
    ∧ (env.response = RespSec.arr [] →
        core_request_singlepage env = Except.error PyExc.indexError) := by
  refine ⟨?_, ?_, ?_, ?_, ?_, ?_⟩
  · intro h; simp [request_singlepage, h]
  · intro h x hx; simp [request_singlepage, h, hx]
  · intro h fields hf
    rcases fields with _ | ⟨f, rest⟩
    · exact ⟨PyExc.assertionError, by simp [request_singlepage, h, hf]⟩
    · rcases rest with _ | ⟨g, rest⟩
      · exact ⟨PyExc.keyError, by simp [request_singlepage, h, hf]⟩
      · exact ⟨PyExc.assertionError, by simp [request_singlepage, h, hf]⟩
  · intro fields hf; simp [core_request_singlepage, hf]
  · intro x xs hx; simp [core_request_singlepage, hx]
  · intro hx; simp [core_request_singlepage, hx]

/-- Witness for C6's amended theorem: an envelope whose response is the
one-element sequence `[7]` with no pagination block — the api helper
returns the record. -/
theorem c6_singlepage_behaviour_witness :
    request_singlepage (⟨RespSec.arr [7], false⟩ : Envelope Nat) =
      Except.ok (SPOut.record 7) :=
  (c6_singlepage_behaviour Nat ⟨RespSec.arr [7], false⟩).2.1 rfl 7 rfl

end Pixiv

/-! ## The request pipeline (`core.PixivApi._request`, core.py lines
96-111; `api.PixivApiBase.request` behaves the same way here) -/

namespace Pixiv

/-- A JSON value as far as the error-translation branch inspects it:
objects (string-keyed maps) and strings. -/
inductive JVal where
  | obj (fields : List (String × JVal))
  | str (s : String)

/-- `listStartsWith pat cs`: `cs` begins with `pat`. -/
def listStartsWith : List Char → List Char → Bool
  | [], _ => true
  | _ :: _, [] => false
  | p :: ps, c :: cs => p == c && listStartsWith ps cs

/-- Python substring membership `pat in s`. -/
def listHasSub (pat : List Char) : List Char → Bool
  | [] => listStartsWith pat []
  | c :: cs => listStartsWith pat (c :: cs) || listHasSub pat cs

/-- Python `'k' in body`: key membership on a dict, substring test on a
str. -/
def pyContains (v : JVal) (k : String) : Bool :=
  match v with
  | JVal.obj fields => hasKey fields k
  | JVal.str s => listHasSub k.toList s.toList

/-- Errors produced (or let through) by `_request`. -/
inductive ReqErr where
  | pixivError (msg : Option JVal)
  | jsonDecodeError
  | keyError
  | typeError

/-- The lookup chain `body['errors']['system']['message']` (core.py line
102): `KeyError` on a missing key, `TypeError` when indexing a str. -/
def errorsMessage (body : JVal) : Except ReqErr JVal :=
  match body with
  | JVal.str _ => Except.error ReqErr.typeError
  | JVal.obj fields =>
    match getKey fields "errors" with
    | none => Except.error ReqErr.keyError
    | some (JVal.str _) => Except.error ReqErr.typeError
    | some (JVal.obj efields) =>
      match getKey efields "system" with
      | none => Except.error ReqErr.keyError
      | some (JVal.str _) => Except.error ReqErr.typeError
      | some (JVal.obj sfields) =>
        match getKey sfields "message" with
        | none => Except.error ReqErr.keyError
        | some m => Except.ok m

/-- The transport outcome of one call, with the result of `json.loads`
on the relevant body already attached (`none`: the body does not parse
as JSON and `json.loads` raises). -/
inductive HttpOutcome where
  | success (body : Option JVal)
  | http_error (body : Option JVal)

/-- `core.PixivApi._request` (core.py lines 96-111).  On
`scrapelib.HTTPError` the source runs `body = json.loads(e.body)` *not*
wrapped in any try, so an unparseable error body lets the decode
exception escape; a parsed body with an `errors` key raises
`PixivError(body['errors']['system']['message'])`, otherwise a bare
`PixivError`.  On success the body is decoded inside
`try: ... except Exception: raise PixivError`. -/
def core_request (outcome : HttpOutcome) : Except ReqErr JVal :=
  match outcome with
  | HttpOutcome.http_error none => Except.error ReqErr.jsonDecodeError
  | HttpOutcome.http_error (some body) =>
    if pyContains body "errors" then
      match errorsMessage body with
      | Except.ok m => Except.error (ReqErr.pixivError (some m))
      | Except.error e => Except.error e
    else Except.error (ReqErr.pixivError none)
  | HttpOutcome.success none => Except.error (ReqErr.pixivError none)
  | HttpOutcome.success (some j) => Except.ok j

theorem getKey_some_hasKey {α : Type} (fs : List (String × α)) (k : String)
    (v : α) (h : getKey fs k = some v) : hasKey fs k = true := by
  induction fs with
  | nil => simp [getKey] at h
  | cons f rest ih =>
    by_cases hk : k = f.1
    · simp [hasKey, hk]
    · simp only [getKey, if_neg hk] at h
      have hrest := ih h
      unfold hasKey at hrest ⊢
      rw [List.any_cons, hrest, Bool.or_true]

/-- C7 as claimed: on every HTTP error status the pipeline raises a
`PixivError` (the `ApiError` class) — with or without a message — and
no other exception type escapes the branch. -/
def c7Claim : Prop :=
  ∀ body : Option JVal, ∃ m : Option JVal,
    core_request (HttpOutcome.http_error body) = Except.error (ReqErr.pixivError m)

/-- **C7, counterexample.**  An HTTP error whose body does not parse as
JSON: `json.loads(e.body)` is not wrapped in a try, so the JSON decode
failure escapes untranslated instead of becoming a generic
`PixivError`. -/
theorem c7_nonjson_body_cex : ¬ c7Claim := by
  intro h
  rcases h none with ⟨m, hm⟩
  simp [core_request] at hm

/-- **C7, amended.**  On an HTTP error status: if the body parses as a
JSON object containing an `errors` field whose `errors.system.message`
chain resolves, the pipeline raises `PixivError` carrying that message;
if the body parses as a JSON object without an `errors` field, it
raises a generic message-less `PixivError`; but if the body does not
parse as JSON the decode failure itself escapes untranslated (and a
malformed `errors` object lets a `KeyError`/`TypeError` escape). -/
theorem c7_request_error_translation :
    (∀ fields m, errorsMessage (JVal.obj fields) = Except.ok m →
      core_request (HttpOutcome.http_error (some (JVal.obj fields))) =
        Except.error (ReqErr.pixivError (some m)))
    ∧ (∀ fields, hasKey fields "errors" = false →
        core_request (HttpOutcome.http_error (some (JVal.obj fields))) =
          Except.error (ReqErr.pixivError none))
    ∧ core_request (HttpOutcome.http_error none) = Except.error ReqErr.jsonDecodeError
    ∧ (∀ fields e, hasKey fields "errors" = true →
        errorsMessage (JVal.obj fields) = Except.error e →
        core_request (HttpOutcome.http_error (some (JVal.obj fields))) =
          Except.error e) := by
  refine ⟨?_, ?_, rfl, ?_⟩
  · intro fields m hok
    have hhk : hasKey fields "errors" = true := by
      rcases hg : getKey fields "errors" with _ | v
      · simp [errorsMessage, hg] at hok
      · exact getKey_some_hasKey fields "errors" v hg
    simp [core_request, pyContains, hhk, hok]
  · intro fields hnone
    simp [core_request, pyContains, hnone]
  · intro fields e hhk herr
    simp [core_request, pyContains, hhk, herr]

/-- Witness for C7's amended theorem: a parsed error body
`{"errors": {"system": {"message": "oops"}}}` produces a `PixivError`
carrying the message. -/
theorem c7_request_error_translation_witness :
    core_request (HttpOutcome.http_error (some (JVal.obj
      [("errors", JVal.obj [("system", JVal.obj [("message", JVal.str "oops")])])]))) =
      Except.error (ReqErr.pixivError (some (JVal.str "oops"))) :=
  c7_request_error_translation.1
    [("errors", JVal.obj [("system", JVal.obj [("message", JVal.str "oops")])])]
    (JVal.str "oops") rfl

end Pixiv

/-! ## Novel download and embedded references (`Downloader.download_novel`,
download.py lines 91-110) -/

namespace Pixiv

def pixivimageTag : List Char := "[pixivimage:".toList

/-- `int()` of a (non-empty) decimal digit string. -/
def parseDigits (ds : List Char) : Nat :=
  ds.foldl (fun a c => a * 10 + (c.toNat - 48)) 0

/-- Match `\[pixivimage:(\d+)\]` at the head of `cs`: the literal tag,
a maximal non-empty digit run, then `]` (since `]` is not a digit, the
greedy `\d+` backtracks to nothing shorter).  Returns the referenced id
and the length of the whole match.  ASCII digits, as in the texts at
hand. -/
def matchRefAt (cs : List Char) : Option (Nat × Nat) :=
  if listStartsWith pixivimageTag cs then
    let rest := cs.drop pixivimageTag.length
    let ds := rest.takeWhile Char.isDigit
    match rest.drop ds.length with
    | ']' :: _ =>
      if ds.isEmpty then none
      else some (parseDigits ds, pixivimageTag.length + ds.length + 1)
    | _ => none
  else none

/-- Fuel-indexed scanner body; every step consumes at least one
character, so fuel equal to the list length suffices. -/
def scanRefsAux : Nat → List Char → List Nat
  | 0, _ => []
  | _, [] => []
  | fuel + 1, c :: rest =>
    match matchRefAt (c :: rest) with
    | some (n, len) => n :: scanRefsAux fuel (rest.drop (len - 1))
    | none => scanRefsAux fuel rest

/-- `re.finditer(r'\[pixivimage:(\d+)\]', text)` (download.py line 109):
leftmost, non-overlapping matches; the scan resumes after each match
and otherwise advances one character. -/
def scanRefs (cs : List Char) : List Nat := scanRefsAux cs.length cs

/-- The loop `for work_id in (...): self.download_work(work_id)`
(download.py lines 109-110; the same shape serves the user-catalog
loops), threading the filesystem and concatenating traces; `none` when
some iteration hits an uncaught exception. -/
def download_works_loop (d : Downloader) (remote : Remote) (now : Int) :
    List Nat → FS → Option (FS × List Ev)
  | [], fs => some (fs, [])
  | i :: is, fs =>
    match download_work d remote now fs i with
    | none => none
    | some r =>
      match download_works_loop d remote now is r.1 with
      | none => none
      | some r2 => some (r2.1, r.2 ++ r2.2)

/-- `Downloader.download_novel` (download.py lines 91-110): fetch the
novel record, save info and comments json, scrape the novel text page,
write the text file (unconditionally) and force its mtime via `_utime`,
then scan the text for `[pixivimage:<digits>]` markers and call
`download_work` for each referenced id in order of appearance. -/
def download_novel (d : Downloader) (remote : Remote) (now : Int) (fs : FS)
    (novel_id : Nat) : Option (FS × List Ev) :=
  let novel := remote.novels novel_id
  let r1 := save_json d now fs (novel_info_outpath novel "json")
  let r2 := save_json d now r1.1 (novel_comments_outpath novel "json")
  let text := remote.novel_text novel_id
  let out := outJoin d.outdir (novel_outpath novel "txt")
  let fs3 := fsSet r2.1 out (utimeMtime now novel.reuploaded_time)
  let pre := Ev.fetchNovelInfo novel_id :: r1.2
    ++ Ev.fetchNovelComments novel.id :: r2.2
    ++ [Ev.fetchNovelText novel_id, Ev.writeText out]
  match download_works_loop d remote now (scanRefs text.toList) fs3 with
  | none => none
  | some r => some (r.1, pre ++ r.2)

/-- `download_work` crashes only on a manga record without `metadata`. -/
def resolvesWork (w : WorkInfo) : Prop := w.is_manga = true → w.metadata ≠ none

theorem hasKey_getKey_some {α : Type} (fs : List (String × α)) (k : String)
    (h : hasKey fs k = true) : ∃ v, getKey fs k = some v := by
  induction fs with
  | nil => simp [hasKey] at h
  | cons f rest ih =>
    by_cases hk : k = f.1
    · exact ⟨f.2, by simp [getKey, hk]⟩
    · have : hasKey rest k = true := by
        unfold hasKey at h ⊢
        rw [List.any_cons] at h
        have hne : (f.1 == k) = false := by
          simp only [beq_eq_false_iff_ne, ne_eq]
          exact fun hh => hk hh.symm
        rwa [hne, Bool.false_or] at h
      obtain ⟨v, hv⟩ := ih this
      exact ⟨v, by simp [getKey, hk, hv]⟩

theorem ugoiraProbe_url_isSome (w : WorkInfo) (hu : ugoiraProbe w = true) :
    ∃ v, ugoiraUrl w = some v := by
  unfold ugoiraProbe at hu
  unfold ugoiraUrl
  rcases hmeta : w.metadata with _ | md
  · rw [hmeta] at hu; simp at hu
  · rw [hmeta] at hu
    rcases hz : md.zip_urls with _ | urls
    · simp [hz] at hu
    · have hk : hasKey urls "ugoira600x600" = true := by simpa [hz] using hu
      show ∃ v, (match md.zip_urls with
        | none => none
        | some urls => getKey urls "ugoira600x600") = some v
      rw [hz]
      exact hasKey_getKey_some urls "ugoira600x600" hk

theorem download_work_isSome (d : Downloader) (remote : Remote) (now : Int)
    (fs : FS) (i : Nat) (h : resolvesWork (remote.works i)) :
    ∃ r, download_work d remote now fs i = some r := by
  unfold download_work
  by_cases hm : (remote.works i).is_manga
  · have hmd := h hm
    rcases hmeta : (remote.works i).metadata with _ | md
    · exact absurd hmeta hmd
    · simp [hm, download_manga, hmeta]
  · simp only [hm, if_false, Bool.false_eq_true]
    by_cases hu : ugoiraProbe (remote.works i)
    · obtain ⟨v, hv⟩ := ugoiraProbe_url_isSome _ hu
      simp [hu, download_ugoira, hv]
    · simp [hu]

theorem download_raw_filter_not (p : Ev → Bool) (hr : ∀ u, p (Ev.rawFetch u) = false)
    (hw : ∀ q, p (Ev.writeFile q) = false)
    (d : Downloader) (now : Int) (fs : FS) (url out : String) (rt : Option Int) :
    ((download_raw d now fs url out rt).2.1).filter p = [] := by
  by_cases hsk : is_skippable fs (outJoin d.outdir out) rt = true
  · simp [download_raw, hsk]
  · simp [download_raw, hsk, List.filter, hr, hw]

theorem download_manga_pages_filter_not (p : Ev → Bool)
    (hr : ∀ u, p (Ev.rawFetch u) = false) (hw : ∀ q, p (Ev.writeFile q) = false)
    (d : Downloader) (now : Int) (work : WorkInfo) :
    ∀ pages i fs, ((download_manga_pages d now work pages i fs).2).filter p = [] := by
  intro pages
  induction pages with
  | nil => intro i fs; rfl
  | cons page rest ih =>
    intro i fs
    unfold download_manga_pages
    rw [List.filter_append, download_raw_filter_not p hr hw, ih]
    rfl

theorem download_manga_filter_not (p : Ev → Bool)
    (hr : ∀ u, p (Ev.rawFetch u) = false) (hw : ∀ q, p (Ev.writeFile q) = false)
    (d : Downloader) (now : Int) (fs : FS) (w : WorkInfo) (r : FS × List Ev)
    (h : download_manga d now fs w = some r) : r.2.filter p = [] := by
  unfold download_manga at h
  rcases hmeta : w.metadata with _ | md
  · rw [hmeta] at h; simp at h
  · rw [hmeta] at h
    simp only [Option.some.injEq] at h
    subst h
    exact download_manga_pages_filter_not p hr hw d now w md.pageiter 0 fs

theorem download_ugoira_filter_not (p : Ev → Bool)
    (hr : ∀ u, p (Ev.rawFetch u) = false) (hw : ∀ q, p (Ev.writeFile q) = false)
    (d : Downloader) (now : Int) (fs : FS) (w : WorkInfo) (r : FS × List Ev)
    (h : download_ugoira d now fs w = some r) : r.2.filter p = [] := by
  unfold download_ugoira at h
  rcases hurl : ugoiraUrl w with _ | url
  · rw [hurl] at h; simp at h
  · rw [hurl] at h
    simp only [Option.some.injEq] at h
    subst h
    exact download_raw_filter_not p hr hw d now fs url (ugoira_outpath w (extOf url))
      w.reuploaded_time

theorem download_illust_filter_not (p : Ev → Bool)
    (hr : ∀ u, p (Ev.rawFetch u) = false) (hw : ∀ q, p (Ev.writeFile q) = false)
    (d : Downloader) (now : Int) (fs : FS) (w : WorkInfo) :
    (download_illust d now fs w).2.filter p = [] :=
  download_raw_filter_not p hr hw d now fs w.image_urls_large
    (illust_outpath w (extOf w.image_urls_large)) w.reuploaded_time

theorem download_work_filter (p : Ev → Bool)
    (hr : ∀ u, p (Ev.rawFetch u) = false)
    (hw : ∀ q, p (Ev.writeFile q) = false)
    (hs : ∀ q, p (Ev.saveJson q) = false)
    (hc : ∀ j, p (Ev.fetchWorkComments j) = false)
    (d : Downloader) (remote : Remote) (now : Int) (fs : FS) (i : Nat)
    (r : FS × List Ev) (h : download_work d remote now fs i = some r) :
    r.2.filter p =
      if p (Ev.fetchWorkInfo i) = true then [Ev.fetchWorkInfo i] else [] := by
  simp only [download_work, save_json] at h
  split at h
  · rcases hd : download_manga d now
        (fsSet (fsSet fs (outJoin d.outdir (work_info_outpath (remote.works i) "json")) now)
          (outJoin d.outdir (work_comments_outpath (remote.works i) "json")) now)
        (remote.works i) with _ | r3
    · rw [hd] at h; simp at h
    · rw [hd] at h
      simp only [Option.some.injEq] at h
      subst h
      have h3 := download_manga_filter_not p hr hw d now _ (remote.works i) r3 hd
      cases hp : p (Ev.fetchWorkInfo i) <;>
        simp [List.filter_append, List.filter_cons, hp, hs, hc, h3]
  · split at h
    · rcases hd : download_ugoira d now
          (fsSet (fsSet fs (outJoin d.outdir (work_info_outpath (remote.works i) "json")) now)
            (outJoin d.outdir (work_comments_outpath (remote.works i) "json")) now)
          (remote.works i) with _ | r3
      · rw [hd] at h; simp at h
      · rw [hd] at h
        simp only [Option.some.injEq] at h
        subst h
        have h3 := download_ugoira_filter_not p hr hw d now _ (remote.works i) r3 hd
        cases hp : p (Ev.fetchWorkInfo i) <;>
          simp [List.filter_append, List.filter_cons, hp, hs, hc, h3]
    · simp only [Option.some.injEq] at h
      subst h
      have h3 := download_illust_filter_not p hr hw d now
        (fsSet (fsSet fs (outJoin d.outdir (work_info_outpath (remote.works i) "json")) now)
          (outJoin d.outdir (work_comments_outpath (remote.works i) "json")) now)
        (remote.works i)
      cases hp : p (Ev.fetchWorkInfo i) <;>
        simp [List.filter_append, List.filter_cons, hp, hs, hc, h3]

theorem download_work_filter_workfetch (d : Downloader) (remote : Remote)
    (now : Int) (fs : FS) (i : Nat) (r : FS × List Ev)
    (h : download_work d remote now fs i = some r) :
    r.2.filter isWorkInfoFetch = [Ev.fetchWorkInfo i] := by
  have h2 := download_work_filter isWorkInfoFetch (fun _ => rfl) (fun _ => rfl)
    (fun _ => rfl) (fun _ => rfl) d remote now fs i r h
  simpa [isWorkInfoFetch] using h2

theorem download_work_filter_userfetch (d : Downloader) (remote : Remote)
    (now : Int) (fs : FS) (i : Nat) (r : FS × List Ev)
    (h : download_work d remote now fs i = some r) :
    r.2.filter isUserInfoFetch = [] := by
  have h2 := download_work_filter isUserInfoFetch (fun _ => rfl) (fun _ => rfl)
    (fun _ => rfl) (fun _ => rfl) d remote now fs i r h
  simpa [isUserInfoFetch] using h2

theorem download_works_loop_filter_workfetch (d : Downloader) (remote : Remote)
    (now : Int) :
    ∀ ids fs r, download_works_loop d remote now ids fs = some r →
      r.2.filter isWorkInfoFetch = ids.map Ev.fetchWorkInfo := by
  intro ids
  induction ids with
  | nil =>
    intro fs r h
    simp only [download_works_loop, Option.some.injEq] at h
    subst h
    rfl
  | cons i rest ih =>
    intro fs r h
    unfold download_works_loop at h
    rcases h1 : download_work d remote now fs i with _ | r1
    · rw [h1] at h; simp at h
    · rw [h1] at h
      simp only at h
      rcases h2 : download_works_loop d remote now rest r1.1 with _ | r2
      · rw [h2] at h; simp at h
      · rw [h2] at h
        simp only [Option.some.injEq] at h
        subst h
        rw [List.filter_append, download_work_filter_workfetch d remote now fs i r1 h1,
          ih r1.1 r2 h2, List.map_cons]
        rfl

theorem download_works_loop_filter_userfetch (d : Downloader) (remote : Remote)
    (now : Int) :
    ∀ ids fs r, download_works_loop d remote now ids fs = some r →
      r.2.filter isUserInfoFetch = [] := by
  intro ids
  induction ids with
  | nil =>
    intro fs r h
    simp only [download_works_loop, Option.some.injEq] at h
    subst h
    rfl
  | cons i rest ih =>
    intro fs r h
    unfold download_works_loop at h
    rcases h1 : download_work d remote now fs i with _ | r1
    · rw [h1] at h; simp at h
    · rw [h1] at h
      simp only at h
      rcases h2 : download_works_loop d remote now rest r1.1 with _ | r2
      · rw [h2] at h; simp at h
      · rw [h2] at h
        simp only [Option.some.injEq] at h
        subst h
        rw [List.filter_append, download_work_filter_userfetch d remote now fs i r1 h1,
          ih r1.1 r2 h2]
        rfl

theorem download_works_loop_isSome (d : Downloader) (remote : Remote) (now : Int) :
    ∀ ids fs, (∀ i ∈ ids, resolvesWork (remote.works i)) →
      ∃ r, download_works_loop d remote now ids fs = some r := by
  intro ids
  induction ids with
  | nil => intro fs _; exact ⟨(fs, []), rfl⟩
  | cons i rest ih =>
    intro fs hres
    obtain ⟨r1, h1⟩ := download_work_isSome d remote now fs i (hres i (by simp))
    obtain ⟨r2, h2⟩ := ih r1.1 (fun j hj => hres j (by simp [hj]))
    exact ⟨(r2.1, r1.2 ++ r2.2), by simp [download_works_loop, h1, h2]⟩

end Pixiv

/-! ## C5: the novel text is written first, then each referenced work -/

namespace Pixiv

/-- **C5.** `download_novel` writes the novel's own files first — info
json, comments json, then the text file — and only then invokes
`download_work` once per `[pixivimage:<digits>]` marker, in the
left-to-right order the markers appear in the text: the trace is the
fixed prefix ending in the text write followed by the loop's trace,
whose work-record fetches are exactly the scanned ids in order. -/
theorem c5_novel_text_then_refs (d : Downloader) (remote : Remote) (now : Int)
    (fs : FS) (novel_id : Nat)
    (hres : ∀ i ∈ scanRefs (remote.novel_text novel_id).toList,
      resolvesWork (remote.works i)) :
    ∃ fs1 loopTr,
      download_novel d remote now fs novel_id =
        some (fs1,
          [Ev.fetchNovelInfo novel_id,
           Ev.saveJson (outJoin d.outdir (novel_info_outpath (remote.novels novel_id) "json")),
           Ev.fetchNovelComments (remote.novels novel_id).id,
           Ev.saveJson (outJoin d.outdir (novel_comments_outpath (remote.novels novel_id) "json")),
           Ev.fetchNovelText novel_id,
           Ev.writeText (outJoin d.outdir (novel_outpath (remote.novels novel_id) "txt"))]
          ++ loopTr) ∧
      loopTr.filter isWorkInfoFetch =
        (scanRefs (remote.novel_text novel_id).toList).map Ev.fetchWorkInfo := by
  obtain ⟨r, hr⟩ := download_works_loop_isSome d remote now
    (scanRefs (remote.novel_text novel_id).toList)
    (fsSet (fsSet (fsSet fs
      (outJoin d.outdir (novel_info_outpath (remote.novels novel_id) "json")) now)
      (outJoin d.outdir (novel_comments_outpath (remote.novels novel_id) "json")) now)
      (outJoin d.outdir (novel_outpath (remote.novels novel_id) "txt"))
      (utimeMtime now (remote.novels novel_id).reuploaded_time)) hres
  refine ⟨r.1, r.2, ?_, download_works_loop_filter_workfetch d remote now _ _ r hr⟩
  simp only [download_novel, save_json]
  rw [hr]
  rfl

/-- Concrete remote used by witnesses: every work record is a plain
illustration by user 9, and novel 77's text embeds references to 111
and then 222. -/
def demoRemote : Remote where
  works := fun i => ⟨i, 9, false, false, none, "http://x/a.jpg", some 60⟩
  novels := fun _ => ⟨77, 9, some 50⟩
  novel_text := fun _ => "ab[pixivimage:111]cd[pixivimage:222]ef"
  users := fun _ => ⟨9, "http://x/p.jpg"⟩
  users_works := fun _ => []
  users_novels := fun _ => []

/-- Witness for C5 at the concrete remote: the scan finds 111 then 222,
and the work-record fetches of the loop trace are exactly those two, in
that order, after the text write. -/
theorem c5_novel_text_then_refs_witness :
    ∃ fs1 loopTr,
      download_novel ⟨"o"⟩ demoRemote 3 [] 77 =
        some (fs1,
          [Ev.fetchNovelInfo 77,
           Ev.saveJson (outJoin "o" (novel_info_outpath (demoRemote.novels 77) "json")),
           Ev.fetchNovelComments 77,
           Ev.saveJson (outJoin "o" (novel_comments_outpath (demoRemote.novels 77) "json")),
           Ev.fetchNovelText 77,
           Ev.writeText (outJoin "o" (novel_outpath (demoRemote.novels 77) "txt"))]
          ++ loopTr) ∧
      loopTr.filter isWorkInfoFetch = [Ev.fetchWorkInfo 111, Ev.fetchWorkInfo 222] := by
  obtain ⟨fs1, loopTr, h1, h2⟩ := c5_novel_text_then_refs ⟨"o"⟩ demoRemote 3 [] 77
    (by intro i hi; exact fun hm => absurd hm (by simp [demoRemote]))
  have hscan : scanRefs (demoRemote.novel_text 77).toList = [111, 222] := by decide
  rw [hscan] at h2
  exact ⟨fs1, loopTr, h1, by simpa using h2⟩

end Pixiv

/-! ## User catalog downloads (`Downloader.download_user_*`,
download.py lines 128-150) -/

namespace Pixiv

/-- `Downloader._download_user_image` (download.py lines 147-150):
`_download_raw` with *no* remote timestamp. -/
def download_user_image (d : Downloader) (now : Int) (fs : FS) (user : UserInfo) :
    FS × List Ev :=
  let url := user.profile_image_url
  let r := download_raw d now fs url (user_image_outpath user (extOf url)) none
  (r.1, r.2.1)

/-- `Downloader._download_user_info` (download.py lines 142-145): fetch
the user record, download the profile image, save the info json. -/
def download_user_info (d : Downloader) (remote : Remote) (now : Int) (fs : FS)
    (user_id : Nat) : FS × List Ev :=
  let user := remote.users user_id
  let r1 := download_user_image d now fs user
  let r2 := save_json d now r1.1 (user_info_outpath user "json")
  (r2.1, Ev.fetchUserInfo user_id :: r1.2 ++ r2.2)

/-- The loop `for novel in self.api.users_novels(user_id):
self.download_novel(novel.id)` (download.py lines 135-136). -/
def download_novels_loop (d : Downloader) (remote : Remote) (now : Int) :
    List Nat → FS → Option (FS × List Ev)
  | [], fs => some (fs, [])
  | i :: is, fs =>
    match download_novel d remote now fs i with
    | none => none
    | some r =>
      match download_novels_loop d remote now is r.1 with
      | none => none
      | some r2 => some (r2.1, r.2 ++ r2.2)

/-- `Downloader.download_user_works` (download.py lines 128-131). -/
def download_user_works (d : Downloader) (remote : Remote) (now : Int) (fs : FS)
    (user_id : Nat) : Option (FS × List Ev) :=
  let r1 := download_user_info d remote now fs user_id
  match download_works_loop d remote now
      ((remote.users_works user_id).map WorkInfo.id) r1.1 with
  | none => none
  | some r2 => some (r2.1, r1.2 ++ r2.2)

/-- `Downloader.download_user_novels` (download.py lines 133-136). -/
def download_user_novels (d : Downloader) (remote : Remote) (now : Int) (fs : FS)
    (user_id : Nat) : Option (FS × List Ev) :=
  let r1 := download_user_info d remote now fs user_id
  match download_novels_loop d remote now
      ((remote.users_novels user_id).map NovelInfo.id) r1.1 with
  | none => none
  | some r2 => some (r2.1, r1.2 ++ r2.2)

/-- `Downloader.download_user_all` (download.py lines 138-140): runs
`download_user_works` and then `download_user_novels`, each of which
calls `_download_user_info` itself. -/
def download_user_all (d : Downloader) (remote : Remote) (now : Int) (fs : FS)
    (user_id : Nat) : Option (FS × List Ev) :=
  match download_user_works d remote now fs user_id with
  | none => none
  | some r1 =>
    match download_user_novels d remote now r1.1 user_id with
    | none => none
    | some r2 => some (r2.1, r1.2 ++ r2.2)

/-- With no remote timestamp the staleness check never skips: the bytes
are fetched and written whatever the local filesystem holds. -/
theorem download_raw_none_always_fetches (d : Downloader) (now : Int) (fs : FS)
    (url out : String) :
    (download_raw d now fs url out none).2.1 =
      [Ev.rawFetch url, Ev.writeFile (outJoin d.outdir out)] := rfl

theorem download_novel_filter_userfetch (d : Downloader) (remote : Remote)
    (now : Int) (fs : FS) (i : Nat) (r : FS × List Ev)
    (h : download_novel d remote now fs i = some r) :
    r.2.filter isUserInfoFetch = [] := by
  simp only [download_novel, save_json] at h
  rcases hl : download_works_loop d remote now (scanRefs (remote.novel_text i).toList)
      (fsSet (fsSet (fsSet fs
        (outJoin d.outdir (novel_info_outpath (remote.novels i) "json")) now)
        (outJoin d.outdir (novel_comments_outpath (remote.novels i) "json")) now)
        (outJoin d.outdir (novel_outpath (remote.novels i) "txt"))
        (utimeMtime now (remote.novels i).reuploaded_time)) with _ | rl
  · rw [hl] at h; simp at h
  · rw [hl] at h
    simp only [Option.some.injEq] at h
    subst h
    simp [List.filter_append, List.filter_cons, isUserInfoFetch,
      download_works_loop_filter_userfetch d remote now _ _ rl hl]

theorem download_novels_loop_filter_userfetch (d : Downloader) (remote : Remote)
    (now : Int) :
    ∀ ids fs r, download_novels_loop d remote now ids fs = some r →
      r.2.filter isUserInfoFetch = [] := by
  intro ids
  induction ids with
  | nil =>
    intro fs r h
    simp only [download_novels_loop, Option.some.injEq] at h
    subst h
    rfl
  | cons i rest ih =>
    intro fs r h
    unfold download_novels_loop at h
    rcases h1 : download_novel d remote now fs i with _ | r1
    · rw [h1] at h; simp at h
    · rw [h1] at h
      simp only at h
      rcases h2 : download_novels_loop d remote now rest r1.1 with _ | r2
      · rw [h2] at h; simp at h
      · rw [h2] at h
        simp only [Option.some.injEq] at h
        subst h
        rw [List.filter_append, download_novel_filter_userfetch d remote now fs i r1 h1,
          ih r1.1 r2 h2]
        rfl

theorem download_user_works_filter_userfetch (d : Downloader) (remote : Remote)
    (now : Int) (fs : FS) (uid : Nat) (r : FS × List Ev)
    (h : download_user_works d remote now fs uid = some r) :
    r.2.filter isUserInfoFetch = [Ev.fetchUserInfo uid] := by
  simp only [download_user_works, download_user_info, download_user_image,
    save_json] at h
  rcases hl : download_works_loop d remote now
      ((remote.users_works uid).map WorkInfo.id)
      (fsSet (download_raw d now fs (remote.users uid).profile_image_url
        (user_image_outpath (remote.users uid)
          (extOf (remote.users uid).profile_image_url)) none).1
        (outJoin d.outdir (user_info_outpath (remote.users uid) "json")) now) with _ | rl
  · rw [hl] at h; simp at h
  · rw [hl] at h
    simp only [Option.some.injEq] at h
    subst h
    rw [download_raw_none_always_fetches]
    simp [List.filter_append, List.filter_cons, isUserInfoFetch,
      download_works_loop_filter_userfetch d remote now _ _ rl hl]

theorem download_user_novels_filter_userfetch (d : Downloader) (remote : Remote)
    (now : Int) (fs : FS) (uid : Nat) (r : FS × List Ev)
    (h : download_user_novels d remote now fs uid = some r) :
    r.2.filter isUserInfoFetch = [Ev.fetchUserInfo uid] := by
  simp only [download_user_novels, download_user_info, download_user_image,
    save_json] at h
  rcases hl : download_novels_loop d remote now
      ((remote.users_novels uid).map NovelInfo.id)
      (fsSet (download_raw d now fs (remote.users uid).profile_image_url
        (user_image_outpath (remote.users uid)
          (extOf (remote.users uid).profile_image_url)) none).1
        (outJoin d.outdir (user_info_outpath (remote.users uid) "json")) now) with _ | rl
  · rw [hl] at h; simp at h
  · rw [hl] at h
    simp only [Option.some.injEq] at h
    subst h
    rw [download_raw_none_always_fetches]
    simp [List.filter_append, List.filter_cons, isUserInfoFetch,
      download_novels_loop_filter_userfetch d remote now _ _ rl hl]

end Pixiv

/-! ## C9: profile metadata/image once per call — but the combined
variant makes two calls -/

namespace Pixiv

/-- C9 as claimed: every user-catalog download operation — including
the combined works-plus-novels variant — fetches and persists the
profile metadata (and image) exactly once per invocation. -/
def c9Claim : Prop :=
  ∀ (d : Downloader) (remote : Remote) (now : Int) (fs : FS) (user_id : Nat)
    (r : FS × List Ev),
    download_user_all d remote now fs user_id = some r →
    (r.2.filter isUserInfoFetch).length = 1

/-- **C9, counterexample.**  `download_user_all` simply calls
`download_user_works` and then `download_user_novels`, *each* of which
calls `_download_user_info`, so one combined invocation fetches and
persists the profile metadata and image twice, not once. -/
theorem c9_user_all_twice_cex : ¬ c9Claim := by
  intro h
  have h2 := h ⟨"o"⟩ demoRemote 0 [] 9 _ rfl
  revert h2
  decide

/-- **C9, amended.**  Each single-catalog invocation
(`download_user_works` or `download_user_novels`) fetches and persists
the user's profile metadata exactly once and always re-downloads the
profile image (the image is passed no remote timestamp, so the
staleness check never skips it, whatever the local filesystem holds);
the combined `download_user_all` performs the profile fetch twice —
once per sub-invocation. -/
theorem c9_profile_once_per_catalog_call (d : Downloader) (remote : Remote)
    (now : Int) (fs : FS) (user_id : Nat) (rwk rnv ral : FS × List Ev)
    (hw : download_user_works d remote now fs user_id = some rwk)
    (hn : download_user_novels d remote now fs user_id = some rnv)
    (ha : download_user_all d remote now fs user_id = some ral) :
    rwk.2.filter isUserInfoFetch = [Ev.fetchUserInfo user_id]
    ∧ Ev.rawFetch (remote.users user_id).profile_image_url ∈ rwk.2
    ∧ rnv.2.filter isUserInfoFetch = [Ev.fetchUserInfo user_id]
    ∧ Ev.rawFetch (remote.users user_id).profile_image_url ∈ rnv.2
    ∧ (ral.2.filter isUserInfoFetch).length = 2 := by
  refine ⟨download_user_works_filter_userfetch d remote now fs user_id rwk hw, ?_,
    download_user_novels_filter_userfetch d remote now fs user_id rnv hn, ?_, ?_⟩
  · simp only [download_user_works, download_user_info, download_user_image,
      save_json] at hw
    rcases hl : download_works_loop d remote now
        ((remote.users_works user_id).map WorkInfo.id)
        (fsSet (download_raw d now fs (remote.users user_id).profile_image_url
          (user_image_outpath (remote.users user_id)
            (extOf (remote.users user_id).profile_image_url)) none).1
          (outJoin d.outdir (user_info_outpath (remote.users user_id) "json")) now)
        with _ | rl
    · rw [hl] at hw; simp at hw
    · rw [hl] at hw
      simp only [Option.some.injEq] at hw
      subst hw
      rw [download_raw_none_always_fetches]
      simp
  · simp only [download_user_novels, download_user_info, download_user_image,
      save_json] at hn
    rcases hl : download_novels_loop d remote now
        ((remote.users_novels user_id).map NovelInfo.id)
        (fsSet (download_raw d now fs (remote.users user_id).profile_image_url
          (user_image_outpath (remote.users user_id)
            (extOf (remote.users user_id).profile_image_url)) none).1
          (outJoin d.outdir (user_info_outpath (remote.users user_id) "json")) now)
        with _ | rl
    · rw [hl] at hn; simp at hn
    · rw [hl] at hn
      simp only [Option.some.injEq] at hn
      subst hn
      rw [download_raw_none_always_fetches]
      simp
  · unfold download_user_all at ha
    rcases h1 : download_user_works d remote now fs user_id with _ | r1
    · rw [h1] at ha; simp at ha
    · rw [h1] at ha
      simp only at ha
      rcases h2 : download_user_novels d remote now r1.1 user_id with _ | r2
      · rw [h2] at ha; simp at ha
      · rw [h2] at ha
        simp only [Option.some.injEq] at ha
        subst ha
        rw [List.filter_append,
          download_user_works_filter_userfetch d remote now fs user_id r1 h1,
          download_user_novels_filter_userfetch d remote now r1.1 user_id r2 h2]
        rfl

/-- Witness for C9's amended theorem at the concrete remote (empty work
and novel catalogs): one profile fetch per single-catalog call, an
unconditional image byte fetch in each, and two profile fetches for the
combined call. -/
theorem c9_profile_once_per_catalog_call_witness :
    ∃ rwk rnv ral,
      download_user_works ⟨"o"⟩ demoRemote 0 [] 9 = some rwk ∧
      download_user_novels ⟨"o"⟩ demoRemote 0 [] 9 = some rnv ∧
      download_user_all ⟨"o"⟩ demoRemote 0 [] 9 = some ral ∧
      rwk.2.filter isUserInfoFetch = [Ev.fetchUserInfo 9] ∧
      Ev.rawFetch (demoRemote.users 9).profile_image_url ∈ rwk.2 ∧
      rnv.2.filter isUserInfoFetch = [Ev.fetchUserInfo 9] ∧
      Ev.rawFetch (demoRemote.users 9).profile_image_url ∈ rnv.2 ∧
      (ral.2.filter isUserInfoFetch).length = 2 := by
  obtain ⟨h1, h2, h3, h4, h5⟩ := c9_profile_once_per_catalog_call ⟨"o"⟩ demoRemote
    0 [] 9 _ _ _ rfl rfl rfl
  exact ⟨_, _, _, rfl, rfl, rfl, h1, h2, h3, h4, h5⟩

end Pixiv

/-! ## Cookie jar updates (`api.PixivApiBase.request`, api.py lines
117-133) -/

namespace Pixiv

/-- ASCII whitespace as matched by `\s` in Python's `re` (the header
strings at hand are ASCII). -/
def isSpaceChar (c : Char) : Bool :=
  c == ' ' || c == '\t' || c == '\n' || c == '\r' || c == '\x0b' || c == '\x0c'

/-- Largest index `j` (counting from `i` at the head) whose element
satisfies `p j`. -/
def lastIdxFrom (p : Nat → Char → Bool) : List Char → Nat → Option Nat
  | [], _ => none
  | c :: rest, i =>
    match lastIdxFrom p rest (i + 1) with
    | some j => some j
    | none => if p i c then some i else none

theorem lastIdxFrom_spec (p : Nat → Char → Bool) :
    ∀ (cs : List Char) (i j : Nat), lastIdxFrom p cs i = some j →
      i ≤ j ∧ j - i < cs.length ∧
        ∃ c, cs[j - i]? = some c ∧ p j c = true := by
  intro cs
  induction cs with
  | nil => intro i j h; simp [lastIdxFrom] at h
  | cons c rest ih =>
    intro i j h
    unfold lastIdxFrom at h
    rcases hrec : lastIdxFrom p rest (i + 1) with _ | j2
    · rw [hrec] at h
      simp only at h
      split at h
      · simp only [Option.some.injEq] at h
        subst h
        exact ⟨le_refl i, by simp, c, by simp, by assumption⟩
      · simp at h
    · rw [hrec] at h
      simp only [Option.some.injEq] at h
      subst h
      obtain ⟨h1, h2, c2, h3, h4⟩ := ih (i + 1) j2 hrec
      refine ⟨by omega, by simp only [List.length_cons]; omega, c2, ?_, h4⟩
      have hji : j2 - i = (j2 - (i + 1)) + 1 := by omega
      rw [hji]
      simpa using h3

/-- The Python regex `(\S+)=(\S+);` matched at the start of `run`, a
run of non-space characters: group 1 is greedy, so the '=' chosen is
the *last* index `l ≥ 1` of `run` holding '=' such that the rest can
still match (some ';' at an index ≥ l+2); group 2 is greedy in turn, so
the ';' chosen is the last index `j ≥ l + 2` holding ';'.  Returns
(name, value, match length). -/
def matchPairRun (run : List Char) : Option (List Char × List Char × Nat) :=
  match lastIdxFrom (fun l c => decide (1 ≤ l) && (c == '=')
      && ((run.drop (l + 2)).contains ';')) run 0 with
  | none => none
  | some l =>
    match lastIdxFrom (fun j c => decide (l + 2 ≤ j) && (c == ';')) run 0 with
    | none => none
    | some j => some (run.take l, (run.drop (l + 1)).take (j - (l + 1)), j + 1)

/-- `(\S+)=(\S+);` matched at the head of `cs`: since every matched
character is `\S`, the whole match lies inside the maximal non-space
run at the head. -/
def matchPairAt (cs : List Char) : Option (List Char × List Char × Nat) :=
  matchPairRun (cs.takeWhile fun c => !(isSpaceChar c))

theorem matchPairRun_take (run : List Char) (n v : List Char) (len : Nat)
    (h : matchPairRun run = some (n, v, len)) :
    len ≤ run.length ∧ run.take len = n ++ '=' :: (v ++ [';']) := by
  unfold matchPairRun at h
  rcases hl : lastIdxFrom (fun l c => decide (1 ≤ l) && (c == '=')
      && ((run.drop (l + 2)).contains ';')) run 0 with _ | l
  · rw [hl] at h; simp at h
  · rw [hl] at h
    simp only at h
    rcases hj : lastIdxFrom (fun j c => decide (l + 2 ≤ j) && (c == ';')) run 0 with _ | j
    · rw [hj] at h; simp at h
    · rw [hj] at h
      simp only [Option.some.injEq, Prod.mk.injEq] at h
      obtain ⟨hn, hv, hlen⟩ := h
      subst hn; subst hv; subst hlen
      obtain ⟨-, hllt, cl, hcl, hpl⟩ := lastIdxFrom_spec _ run 0 l hl
      obtain ⟨-, hjlt, cj, hcj, hpj⟩ := lastIdxFrom_spec _ run 0 j hj
      simp only [Nat.sub_zero] at hllt hjlt hcl hcj
      simp only [Bool.and_eq_true, decide_eq_true_eq, beq_iff_eq] at hpl hpj
      have hceq : cl = '=' := hpl.1.2
      have hcsemi : cj = ';' := hpj.2
      have hl2j : l + 2 ≤ j := hpj.1
      subst hceq
      subst hcsemi
      refine ⟨by omega, ?_⟩
      have hsplit : j + 1 = l + (j + 1 - l) := by omega
      rw [hsplit, List.take_add]
      congr 1
      have hdrop : run.drop l = '=' :: run.drop (l + 1) := by
        obtain ⟨hlt2, hgl⟩ := List.getElem?_eq_some.mp hcl
        rw [List.drop_eq_getElem_cons hlt2, hgl]
      rw [hdrop]
      have h2 : j + 1 - l = (j - l) + 1 := by omega
      rw [h2, List.take_succ_cons]
      congr 1
      have h3 : j - l = (j - (l + 1)) + 1 := by omega
      rw [h3, List.take_succ]
      congr 1
      rw [List.getElem?_drop]
      have h4 : l + 1 + (j - (l + 1)) = j := by omega
      rw [h4, hcj]
      rfl

theorem matchPairAt_take (cs : List Char) (n v : List Char) (len : Nat)
    (h : matchPairAt cs = some (n, v, len)) :
    cs.take len = n ++ '=' :: (v ++ [';']) := by
  unfold matchPairAt at h
  obtain ⟨hlen, htake⟩ :=
    matchPairRun_take (cs.takeWhile fun c => !(isSpaceChar c)) n v len h
  obtain ⟨t, ht⟩ := (List.takeWhile_prefix (fun c => !(isSpaceChar c)) (l := cs))
  calc cs.take len
      = ((cs.takeWhile fun c => !(isSpaceChar c)) ++ t).take len := by rw [ht]
    _ = (cs.takeWhile fun c => !(isSpaceChar c)).take len ++
          t.take (len - (cs.takeWhile fun c => !(isSpaceChar c)).length) := by
          rw [List.take_append_eq_append_take]
    _ = n ++ '=' :: (v ++ [';']) := by
          have : len - (cs.takeWhile fun c => !(isSpaceChar c)).length = 0 := by omega
          rw [this, List.take_zero, List.append_nil, htake]

/-- Fuel-indexed scan; every step consumes at least one character. -/
def findPairsAux : Nat → List Char → List (List Char × List Char)
  | 0, _ => []
  | _, [] => []
  | fuel + 1, c :: rest =>
    match matchPairAt (c :: rest) with
    | some (n, v, len) => (n, v) :: findPairsAux fuel (rest.drop (len - 1))
    | none => findPairsAux fuel rest

/-- `re.finditer(r'(\S+)=(\S+);', header)` (api.py line 130): leftmost
non-overlapping matches, each contributing its (name, value) groups. -/
def findPairs (cs : List Char) : List (List Char × List Char) :=
  findPairsAux cs.length cs

theorem findPairsAux_infix :
    ∀ (fuel : Nat) (cs : List Char) (n v : List Char),
      (n, v) ∈ findPairsAux fuel cs → (n ++ '=' :: (v ++ [';'])) <:+: cs := by
  intro fuel
  induction fuel with
  | zero => intro cs n v h; simp [findPairsAux] at h
  | succ fuel ih =>
    intro cs n v h
    match cs with
    | [] => simp [findPairsAux] at h
    | c :: rest =>
      unfold findPairsAux at h
      rcases hm : matchPairAt (c :: rest) with _ | nvl
      · rw [hm] at h
        simp only at h
        exact List.infix_cons (ih rest n v h)
      · obtain ⟨n2, v2, len⟩ := nvl
        rw [hm] at h
        simp only [List.mem_cons, Prod.mk.injEq] at h
        rcases h with ⟨hn, hv⟩ | h
        · subst hn; subst hv
          have htake := matchPairAt_take (c :: rest) n v len hm
          rw [← htake]
          exact (List.take_prefix len (c :: rest)).isInfix
        · have hinf := ih (rest.drop (len - 1)) n v h
          exact List.infix_cons (hinf.trans (List.drop_suffix (len - 1) rest).isInfix)

theorem findPairs_infix (cs : List Char) (n v : List Char)
    (h : (n, v) ∈ findPairs cs) : (n ++ '=' :: (v ++ [';'])) <:+: cs :=
  findPairsAux_infix cs.length cs n v h

/-- The session cookie jar: name ↦ value, insertion-ordered. -/
abbrev Jar : Type := List (String × String)

/-- `dict.update({name: value})`: overwrite the binding in place when
the name is present, append otherwise. -/
def dictUpdate (jar : Jar) (kv : String × String) : Jar :=
  if jar.any (fun q => q.1 == kv.1) then
    jar.map (fun q => if q.1 == kv.1 then kv else q)
  else jar ++ [kv]

/-- The cookie-merging loop of `api.PixivApiBase.request` (api.py lines
129-131): one `cookies.update` per regex match over the `Set-Cookie`
header text. -/
def updateCookies (jar : Jar) (header : String) : Jar :=
  (findPairs header.toList).foldl
    (fun j nv => dictUpdate j (String.mk nv.1, String.mk nv.2)) jar

/-- The cookie effect of one `request` call (api.py lines 117-133):
`none` models the HTTPError path (no update), `some none` a response
without a `Set-Cookie` header, `some (some h)` a response carrying
header text `h`. -/
def requestCookies (jar : Jar) (outcome : Option (Option String)) : Jar :=
  match outcome with
  | none => jar
  | some none => jar
  | some (some h) => updateCookies jar h

theorem getKey_map_overwrite (kv : String × String) :
    ∀ (jar : Jar) (k : String), (getKey jar k).isSome = true →
      (getKey (jar.map (fun q => if q.1 == kv.1 then kv else q)) k).isSome = true := by
  intro jar
  induction jar with
  | nil => intro k h; simp [getKey] at h
  | cons q rest ih =>
    intro k h
    rw [List.map_cons]
    by_cases hq : q.1 == kv.1
    · rw [if_pos hq]
      by_cases hk : k = kv.1
      · show (if k = kv.1 then some kv.2 else getKey _ k).isSome = true
        rw [if_pos hk]
        rfl
      · show (if k = kv.1 then some kv.2 else
          getKey (rest.map (fun q => if q.1 == kv.1 then kv else q)) k).isSome = true
        rw [if_neg hk]
        have hk2 : ¬ k = q.1 := fun he => hk (he.trans (beq_iff_eq.mp hq))
        have h2 : (getKey rest k).isSome = true := by
          unfold getKey at h
          rwa [if_neg hk2] at h
        exact ih k h2
    · rw [if_neg hq]
      by_cases hk : k = q.1
      · show (if k = q.1 then some q.2 else getKey _ k).isSome = true
        rw [if_pos hk]
        rfl
      · show (if k = q.1 then some q.2 else
          getKey (rest.map (fun q => if q.1 == kv.1 then kv else q)) k).isSome = true
        rw [if_neg hk]
        have h2 : (getKey rest k).isSome = true := by
          unfold getKey at h
          rwa [if_neg hk] at h
        exact ih k h2

theorem getKey_append_isSome {α : Type} :
    ∀ (a b : List (String × α)) (k : String), (getKey a k).isSome = true →
      (getKey (a ++ b) k).isSome = true := by
  intro a
  induction a with
  | nil => intro b k h; simp [getKey] at h
  | cons q rest ih =>
    intro b k h
    by_cases hk : k = q.1
    · show (if k = q.1 then some q.2 else getKey (rest ++ b) k).isSome = true
      rw [if_pos hk]
      rfl
    · show (if k = q.1 then some q.2 else getKey (rest ++ b) k).isSome = true
      rw [if_neg hk]
      have h2 : (getKey rest k).isSome = true := by
        unfold getKey at h
        rwa [if_neg hk] at h
      exact ih b k h2

theorem getKey_dictUpdate_isSome (jar : Jar) (kv : String × String) (k : String)
    (h : (getKey jar k).isSome = true) :
    (getKey (dictUpdate jar kv) k).isSome = true := by
  unfold dictUpdate
  split
  · exact getKey_map_overwrite kv jar k h
  · exact getKey_append_isSome jar [kv] k h

theorem getKey_foldl_dictUpdate_isSome :
    ∀ (pairs : List (List Char × List Char)) (jar : Jar) (k : String),
      (getKey jar k).isSome = true →
      (getKey (pairs.foldl
        (fun j nv => dictUpdate j (String.mk nv.1, String.mk nv.2)) jar) k).isSome = true := by
  intro pairs
  induction pairs with
  | nil => intro jar k h; exact h
  | cons nv rest ih =>
    intro jar k h
    rw [List.foldl_cons]
    exact ih _ k (getKey_dictUpdate_isSome jar _ k h)

end Pixiv

/-! ## C10: monotone cookie-jar growth -/

namespace Pixiv

/-- **C10.** The cookie jar grows monotonically: no request outcome —
HTTPError, no `Set-Cookie` header, or a merge — ever removes an
existing cookie (its name stays bound, though its value may be
overwritten); every pair the merge adds or overwrites comes from a
`(\S+)=(\S+);` match, so its `name=value` text is followed by a
semicolon in the header; and a header without any semicolon — in
particular a trailing `name=value` pair with no terminator — merges
nothing. -/
theorem c10_cookie_jar_merge :
    (∀ (jar : Jar) (outcome : Option (Option String)) (k : String),
      (getKey jar k).isSome = true →
      (getKey (requestCookies jar outcome) k).isSome = true)
    ∧ (∀ (s : String) (n v : List Char), (n, v) ∈ findPairs s.toList →
        (n ++ '=' :: (v ++ [';'])) <:+: s.toList)
    ∧ (∀ (jar : Jar) (s : String), ';' ∉ s.toList → updateCookies jar s = jar)
    ∧ updateCookies [] "a=1; b=2" = [("a", "1")] := by
  refine ⟨?_, fun s n v h => findPairs_infix s.toList n v h, ?_, by decide⟩
  · intro jar outcome k h
    match outcome with
    | none => exact h
    | some none => exact h
    | some (some hd) => exact getKey_foldl_dictUpdate_isSome _ jar k h
  · intro jar s hsemi
    have hnil : findPairs s.toList = [] := by
      cases hfp : findPairs s.toList with
      | nil => rfl
      | cons p rest =>
        exfalso
        have hmem : (p.1, p.2) ∈ findPairs s.toList := by
          rw [hfp]
          exact List.mem_cons_self _ _
        have hinf := findPairs_infix s.toList p.1 p.2 hmem
        exact hsemi (hinf.subset (by simp))
    unfold updateCookies
    rw [hnil]
    rfl

/-- Witness for C10: a jar holding `sid` keeps it across a merge of
`"a=1; b=2"`, and the trailing `b=2` (no semicolon anywhere) merges
nothing on its own. -/
theorem c10_cookie_jar_merge_witness :
    (getKey (requestCookies [("sid", "x")] (some (some "a=1; b=2"))) "sid").isSome = true
    ∧ updateCookies [("sid", "x")] "b=2" = [("sid", "x")] :=
  ⟨c10_cookie_jar_merge.1 [("sid", "x")] (some (some "a=1; b=2")) "sid" rfl,
   c10_cookie_jar_merge.2.2.1 [("sid", "x")] "b=2" (by decide)⟩

end Pixiv
